import Mathlib

/-!
Verification of the class-construction machinery of pure_interface (src/pure_interface.py)
against its natural-language specification.  Python callables, class namespaces and the
metaclass hooks are shallowly embedded as executable Lean definitions; each definition names
the source function and line range it translates.
-/

set_option autoImplicit false

namespace PureInterfaceSpec

/-- Python constants as they appear in the constant pool of a code object. -/
inductive PyConst
  | noneConst
  | intConst (n : Int)
  | strConst (s : String)
  | otherConst
  deriving DecidableEq, Repr

/-- Bytecode instruction as produced by dis.get_instructions: an opcode name and an optional
numeric argument. -/
structure Instr where
  opname : String
  arg : Option Nat
  deriving DecidableEq, Repr

/-- Model of a Python code object: the instruction list together with the co_consts and
co_names tables that instruction arguments index into. -/
structure CodeObj where
  instrs : List Instr
  co_consts : List PyConst
  co_names : List String
  deriving DecidableEq, Repr

/-- Test that a constant is the Python constant None. -/
def constIsNone : PyConst → Bool
  | PyConst.noneConst => true
  | _ => false

/-- Test that an instruction is LOAD_CONST of the constant None, looking the argument up in
co_consts as src/pure_interface.py line 228 does. -/
def instrLoadsNone (c : CodeObj) (i : Instr) : Bool :=
  i.opname == "LOAD_CONST" &&
    (match i.arg with
     | some a => constIsNone (c.co_consts.getD a PyConst.otherConst)
     | Option.none => false)

/-- Test that an instruction is LOAD_GLOBAL of the name NotImplementedError, looking the
argument up in co_names as src/pure_interface.py line 238 does. -/
def instrLoadsGlobalNIE (c : CodeObj) (i : Instr) : Bool :=
  i.opname == "LOAD_GLOBAL" &&
    (match i.arg with
     | some a => c.co_names.getD a "" == "NotImplementedError"
     | Option.none => false)

/-- Shallow embedding of the emptiness verifier _is_empty_function
(src/pure_interface.py lines 201-241), applied to the code object obtained after the
method/function unwrapping at its top.  The raw co_code quick checks of lines 218-221 accept
exactly instruction lists of the form LOAD_CONST None; RETURN_VALUE, which the general
instruction-level path below also accepts, so they are not modelled separately.  The source
asserts that the final instruction of compiled code is RETURN_VALUE. -/
def isEmptyCode (c : CodeObj) : Bool :=
  let n := c.instrs.length
  if n < 2 then true
  else
    match c.instrs.get? (n - 2) with
    | Option.none => true
    | some instr =>
      if !(instrLoadsNone c instr) then false
      else
        let body := c.instrs.take (n - 2)
        match body.reverse with
        | [] => true
        | last :: restRev =>
          if last.opname == "RAISE_VARARGS" then
            match restRev with
            | secondLast :: rest2 =>
              secondLast.opname == "CALL_FUNCTION" &&
                (rest2.reverse).any (fun i => instrLoadsGlobalNIE c i)
            | [] => false
          else false

/-- Named function collected for the interface emptiness check: the declared name together
with the code object of its body. -/
structure NamedFunc where
  name : String
  code : CodeObj
  deriving DecidableEq, Repr

/-- Error message raised by PureInterfaceType.__new__ lines 494-495 for a non-empty
interface function. -/
def emptyErrMsg (name : String) : String :=
  "Function \"" ++ name ++ "\" is not empty.\nDid you forget to inherit from object to make the class concrete?"

/-- Shallow embedding of the emptiness-check loop of PureInterfaceType.__new__
(src/pure_interface.py lines 490-495): property accessors may be absent (None entries are
skipped), and the first non-empty function aborts construction with an InterfaceError
naming the function. -/
def checkInterfaceFunctionsEmpty : List (Option NamedFunc) → Except String Unit
  | [] => Except.ok ()
  | Option.none :: rest => checkInterfaceFunctionsEmpty rest
  | some f :: rest =>
    if isEmptyCode f.code then checkInterfaceFunctionsEmpty rest
    else Except.error (emptyErrMsg f.name)

/-- Placeholder bodies in the sense of claim C2: the compilation of a body that is only a
docstring, pass or ellipsis (a lone implicit return None), or a single construct-and-raise
of NotImplementedError followed by the implicit return None. -/
def isPlaceholderCode (c : CodeObj) : Bool :=
  match c.instrs with
  | [l, r] => instrLoadsNone c l && r.opname == "RETURN_VALUE"
  | [g, cf, rv, l, r] =>
    instrLoadsGlobalNIE c g && cf.opname == "CALL_FUNCTION" && rv.opname == "RAISE_VARARGS" &&
      instrLoadsNone c l && r.opname == "RETURN_VALUE"
  | _ => false

/-- Code object of a body consisting of the single statement return 42. -/
def return42Code : CodeObj :=
  ⟨[⟨"LOAD_CONST", some 1⟩, ⟨"RETURN_VALUE", Option.none⟩],
   [PyConst.noneConst, PyConst.intConst 42], []⟩

/-- Code object of a body that is just pass (or a docstring or ellipsis). -/
def passCode : CodeObj :=
  ⟨[⟨"LOAD_CONST", some 0⟩, ⟨"RETURN_VALUE", Option.none⟩], [PyConst.noneConst], []⟩

/-- Code object of a body that is the single statement raise NotImplementedError(). -/
def raiseNIECode : CodeObj :=
  ⟨[⟨"LOAD_GLOBAL", some 0⟩, ⟨"CALL_FUNCTION", some 0⟩, ⟨"RAISE_VARARGS", some 1⟩,
    ⟨"LOAD_CONST", some 0⟩, ⟨"RETURN_VALUE", Option.none⟩],
   [PyConst.noneConst], ["NotImplementedError"]⟩

/-- Attribute names skipped when scanning a class dict, from _builtin_attrs
(src/pure_interface.py lines 135-141). -/
def builtinAttrs (name : String) : Bool :=
  (["__doc__", "__module__", "__qualname__", "__abstractmethods__", "__dict__",
    "__metaclass__", "__weakref__", "_abc_cache", "_abc_impl", "_abc_registry",
    "_abc_negative_cache_version", "_abc_negative_cache", "_pi", "_pi_unwrap_decorators"] :
    List String).contains name

/-- Value found in a class dict, as the emptiness scan of _type_is_pure_interface sees it:
a callable (with its code object when it is a plain function, none when it has no code and
the source assumes it is OK), a property with its three optional accessors, or any other
value. -/
inductive DictEntry
  | callableVal (code : Option CodeObj)
  | propVal (fget fset fdel : Option CodeObj)
  | otherVal
  deriving DecidableEq, Repr

/-- Emptiness of an optional code object: a missing one counts as empty, mirroring both the
AttributeError branch of _is_empty_function (lines 211-215) and the skip of absent property
accessors (line 166). -/
def emptyOptCode : Option CodeObj → Bool
  | Option.none => true
  | some c => isEmptyCode c

/-- Emptiness of one class-dict value, following the loop body of _type_is_pure_interface
(src/pure_interface.py lines 158-167). -/
def dictEntryEmpty : DictEntry → Bool
  | DictEntry.callableVal code => emptyOptCode code
  | DictEntry.propVal g s d => emptyOptCode g && emptyOptCode s && emptyOptCode d
  | DictEntry.otherVal => true

/-- Model of a base class as _type_is_pure_interface inspects it: whether it is the builtin
object, its _pi interface flag when the attribute is present, whether its metaclass derives
from abc.ABCMeta, and its own class dict. -/
structure PyBase where
  isObject : Bool
  pi : Option Bool
  isABCMetaType : Bool
  dict : List (String × DictEntry)
  deriving DecidableEq, Repr

/-- Shallow embedding of _type_is_pure_interface (src/pure_interface.py lines 151-170):
object is never an interface, a class carrying _pi reports its stored flag, and an
ABCMeta-metaclassed class is an interface exactly when every non-builtin dict entry is
empty; everything else is concrete. -/
def typeIsPureInterfaceFn (c : PyBase) : Bool :=
  if c.isObject then false
  else
    match c.pi with
    | some b => b
    | Option.none =>
      if c.isABCMetaType then
        c.dict.all (fun p => builtinAttrs p.1 || dictEntryEmpty p.2)
      else false

/-- Shallow embedding of the interface vote of PureInterfaceType.__new__
(src/pure_interface.py lines 439-443): a participating class is an interface iff every
direct base passes _type_is_pure_interface, with the root PureInterface class itself forced
to be an interface. -/
def computeTypeIsInterface (bases : List PyBase) (clsname module : String) : Bool :=
  let vote := bases.all typeIsPureInterfaceFn
  if clsname == "PureInterface" && module == "pure_interface" then true else vote

/-- Modelled from the claim wording of C1: bases that are plain object are ignored for the
vote, so a class whose direct bases are all interfaces or object would be an interface. -/
def claimTypeIsInterface (bases : List PyBase) : Bool :=
  (bases.filter (fun b => !b.isObject)).all typeIsPureInterfaceFn

/-- Model of the builtin object appearing as a direct base. -/
def objectBase : PyBase := ⟨true, Option.none, true, []⟩

/-- Model of an interface base: a class whose _pi flag records that it is a pure interface. -/
def ifaceBase : PyBase := ⟨false, some true, true, []⟩

/-- Model of an inspect ArgSpec: the positional parameter names, the variadic-positional and
variadic-keyword flags, and how many trailing parameters carry defaults (the length of the
defaults tuple, zero when it is None or empty). -/
structure ArgSpec where
  args : List String
  varargs : Bool
  keywords : Bool
  ndefaults : Nat
  deriving DecidableEq, Repr

/-- Shallow embedding of _signature_info (src/pure_interface.py lines 275-285) restricted to
the argument split: returns the required parameter names and the defaulted parameter names.
Python negative slicing args[:-n] and args[-n:] with n possibly exceeding the length matches
truncated subtraction here. -/
def signatureInfo (s : ArgSpec) : List String × List String :=
  if s.ndefaults ≠ 0 then
    (s.args.take (s.args.length - s.ndefaults), s.args.drop (s.args.length - s.ndefaults))
  else (s.args, [])

/-- Required-name conjunct req_names_match of _signatures_are_consistent
(src/pure_interface.py lines 297-302). -/
def reqNamesMatch (funcSig baseSig : ArgSpec) : Bool :=
  let baseReq := (signatureInfo baseSig).1
  let funcReq := (signatureInfo funcSig).1
  if funcSig.varargs then
    let shortestLen := min baseReq.length funcReq.length
    funcReq.take shortestLen == baseReq.take shortestLen
  else funcSig.args.take baseReq.length == baseReq

/-- Conjunct no_new_required_args of _signatures_are_consistent
(src/pure_interface.py line 303). -/
def noNewRequiredArgs (funcSig baseSig : ArgSpec) : Bool :=
  (signatureInfo funcSig).1.length ≤ (signatureInfo baseSig).1.length

/-- Conjunct def_names_match of _signatures_are_consistent (src/pure_interface.py
lines 304-318): a keyword-capturing override starts with the flag set, otherwise the base
defaulted names must be a prefix of the override defaulted names; when the base has
defaulted parameters and the override captures variadic positionals, any overridden
defaulted name at a different positional index clears the flag. -/
def defNamesMatch (funcSig baseSig : ArgSpec) : Bool :=
  let baseDef := (signatureInfo baseSig).2
  let funcDef := (signatureInfo funcSig).2
  let initial :=
    if funcSig.keywords then true
    else funcDef.take baseDef.length == baseDef
  if !baseDef.isEmpty && funcSig.varargs then
    initial && funcDef.all (fun arg =>
      if baseSig.args.contains arg then
        baseSig.args.indexOf arg == funcSig.args.indexOf arg
      else true)
  else initial

/-- Conjunct varargs_ok of _signatures_are_consistent (src/pure_interface.py
lines 319-323). -/
def varargsOk (funcSig baseSig : ArgSpec) : Bool :=
  (!baseSig.varargs || funcSig.varargs) && (!baseSig.keywords || funcSig.keywords)

/-- Shallow embedding of _signatures_are_consistent (src/pure_interface.py lines 288-324)
as the conjunction returned on line 324. -/
def signaturesAreConsistent (funcSig baseSig : ArgSpec) : Bool :=
  reqNamesMatch funcSig baseSig && defNamesMatch funcSig baseSig &&
    noNewRequiredArgs funcSig baseSig && varargsOk funcSig baseSig

/-- Value found under an overridden method name in a class namespace, as
_check_method_signatures distinguishes them: a plain function, a staticmethod, a
classmethod (each carrying an ArgSpec), some other descriptor (a value with __get__), or a
plain non-descriptor value. -/
inductive AttrValue
  | funcVal (spec : ArgSpec)
  | staticVal (spec : ArgSpec)
  | classVal (spec : ArgSpec)
  | descriptorVal
  | plainVal
  deriving DecidableEq, Repr

/-- ArgSpec extracted from a method-like namespace value, following lines 382-391 of
src/pure_interface.py: staticmethod and classmethod wrappers yield the spec of the wrapped
function. -/
def attrArgSpec : AttrValue → Option ArgSpec
  | AttrValue.funcVal s => some s
  | AttrValue.staticVal s => some s
  | AttrValue.classVal s => some s
  | _ => Option.none

/-- Test for _is_descriptor (src/pure_interface.py lines 271-272) on a non-method value. -/
def attrIsDescriptor : AttrValue → Bool
  | AttrValue.descriptorVal => true
  | _ => false

/-- Error message of src/pure_interface.py lines 393-394, including the argments typo of
the source. -/
def sigErrMsg (module clsname name : String) : String :=
  module ++ "." ++ clsname ++ "." ++ name ++ " argments does not match base class"

/-- Shallow embedding of _check_method_signatures (src/pure_interface.py lines 376-395).
The namespace is an association list with first-match lookup; the module argument stands
for the module entry of the namespace that the error message reads. -/
def checkMethodSignatures (sigs : List (String × ArgSpec))
    (attributes : List (String × AttrValue)) (module clsname : String) :
    Except String Unit :=
  match sigs with
  | [] => Except.ok ()
  | (name, baseSig) :: rest =>
    match attributes.lookup name with
    | Option.none => checkMethodSignatures rest attributes module clsname
    | some value =>
      match attrArgSpec value with
      | Option.none =>
        if attrIsDescriptor value then checkMethodSignatures rest attributes module clsname
        else Except.error "Interface method over-ridden with non-method"
      | some funcSig =>
        if signaturesAreConsistent funcSig baseSig then
          checkMethodSignatures rest attributes module clsname
        else Except.error (sigErrMsg module clsname name)

/-- Python dict assignment d[k] = v on an association list: replace the binding when the
key is present, otherwise append it. -/
def dictInsert {κ α : Type} [BEq κ] (d : List (κ × α)) (kv : κ × α) : List (κ × α) :=
  if d.any (fun p => p.1 == kv.1) then
    d.map (fun p => if p.1 == kv.1 then kv else p)
  else d ++ [kv]

/-- Python dict.update(new) on an association list: insert the new bindings in order, so a
later binding for the same key overwrites an earlier one. -/
def dictUpdate {κ α : Type} [BEq κ] (d : List (κ × α)) (new : List (κ × α)) : List (κ × α) :=
  new.foldl dictInsert d

/-- Interface class as the adapter search sees it: the pure-interface flag checked by
type_is_pure_interface and the per-interface adapter table (source types and adapter
callables are identified by numeric ids; entries of the weak dictionary are its live
entries). -/
structure AIface where
  isInterface : Bool
  adapters : List (Nat × Nat)
  deriving DecidableEq, Repr

/-- Merged adapter dictionary built by _get_adapter (src/pure_interface.py lines 634-639):
the candidate list is the class followed by its direct subclasses, then reversed, and every
candidate that is a pure interface has its table merged with dict update semantics, so the
entries of the class itself overwrite subclass entries for the same source type. -/
def mergedAdapters (cls : AIface) (subs : List AIface) : List (Nat × Nat) :=
  ((cls :: subs).reverse).foldl
    (fun acc s => if s.isInterface then dictUpdate acc s.adapters else acc) []

/-- Scan of the object mro performed by _get_adapter (lines 643-648): the first type with
an entry in the merged dictionary wins. -/
def firstAdapterFor (adapters : List (Nat × Nat)) : List Nat → Option Nat
  | [] => Option.none
  | t :: rest =>
    match adapters.lookup t with
    | some a => some a
    | Option.none => firstAdapterFor adapters rest

/-- Shallow embedding of PureInterface._get_adapter (src/pure_interface.py lines 629-648):
merge the adapter tables of the class and its direct subclasses, return None when the merge
is empty, otherwise scan the mro of the object type most-derived first. -/
def getAdapter (cls : AIface) (subs : List AIface) (objMro : List Nat) : Option Nat :=
  let adapters := mergedAdapters cls subs
  if adapters.isEmpty then Option.none
  else firstAdapterFor adapters objMro

/-- Class metadata consulted by PureInterfaceType.__call__: the class name, the stored
pure-interface flag, and the abstractproperties and interface_attribute_names sets of its
_pi record. -/
structure PiCls where
  name : String
  typeIsPureInterface : Bool
  abstractproperties : List String
  interfaceAttributeNames : List String
  deriving DecidableEq, Repr

/-- Freshly constructed instance, reduced to the set of attribute names for which hasattr
holds on it after the constructor ran. -/
structure PyInstance where
  attrs : List String
  deriving DecidableEq, Repr

/-- Error message of src/pure_interface.py lines 542 and 545. -/
def missingAttrMsg (clsname attr : String) : String :=
  clsname ++ ".__init__ does not create required attribute \"" ++ attr ++ "\""

/-- First name of the list that is not resolvable on the instance, mirroring the two
hasattr loops of PureInterfaceType.__call__. -/
def firstMissing (self : PyInstance) (names : List String) : Option String :=
  names.find? (fun a => !(self.attrs.contains a))

/-- Shallow embedding of PureInterfaceType.__call__ (src/pure_interface.py lines 535-546):
interfaces refuse instantiation outright; otherwise the instance produced by the underlying
constructor is checked for every abstract property and interface attribute name and
returned unchanged when all are present. -/
def piCall (cls : PiCls) (self : PyInstance) : Except String PyInstance :=
  if cls.typeIsPureInterface then Except.error "Interfaces cannot be instantiated"
  else
    match firstMissing self cls.abstractproperties with
    | some attr => Except.error (missingAttrMsg cls.name attr)
    | Option.none =>
      match firstMissing self cls.interfaceAttributeNames with
      | some attr => Except.error (missingAttrMsg cls.name attr)
      | Option.none => Except.ok self

/-- Shallow embedding of the empty-interface guard of PureInterfaceType.__new__
(src/pure_interface.py lines 531-532): an interface whose abstractmethods set ended up
empty gets one synthesized unresolved member so that it still refuses instantiation. -/
def finalizeAbstractmethods (typeIsInterface : Bool) (abstractmethods : List String) :
    List String :=
  if typeIsInterface && abstractmethods.isEmpty then [""] else abstractmethods

/-- Python type as the structural matcher sees it: an identity for the cache, and the names
resolvable on the type, each with the callability of the value getattr finds. -/
structure PyType where
  id : Nat
  attrs : List (String × Bool)
  deriving DecidableEq, Repr

/-- Python object as the structural matcher sees it: its type and the names for which
hasattr holds on the instance. -/
structure PyObj where
  ty : PyType
  instAttrs : List String
  deriving DecidableEq, Repr

/-- Interface metadata consulted by the structural matcher: the pure-interface flag, the
declared method names, the union of declared property and attribute names, and the cached
structural subclasses. -/
structure SIface where
  isInterface : Bool
  methodNames : List String
  propsAndAttrs : List String
  structuralSubclasses : List Nat
  deriving DecidableEq, Repr

/-- Test of callable(getattr(ty, attr, None)): the attribute must be present on the type
and its value callable. -/
def typeCallable (ty : PyType) (attr : String) : Bool :=
  match ty.attrs.lookup attr with
  | some c => c
  | Option.none => false

/-- Test of hasattr on the type. -/
def typeHasattr (ty : PyType) (attr : String) : Bool :=
  (ty.attrs.lookup attr).isSome

/-- Shallow embedding of PureInterface._structural_type_check
(src/pure_interface.py lines 563-573): every declared method name resolves to a callable on
the type of the instance, and every declared property or attribute name is present on the
instance. -/
def structuralTypeCheck (cls : SIface) (obj : PyObj) : Bool :=
  cls.methodNames.all (fun attr => typeCallable obj.ty attr) &&
    cls.propsAndAttrs.all (fun attr => obj.instAttrs.contains attr)

/-- Shallow embedding of PureInterface._class_structural_type_check
(src/pure_interface.py lines 575-598), restricted to the boolean it returns for the current
cache state; the cache insertion and the advisory warning on first success do not change
the returned value. -/
def classStructuralTypeCheck (cls : SIface) (ty : PyType) : Bool :=
  if cls.structuralSubclasses.contains ty.id then true
  else
    cls.methodNames.all (fun attr => typeCallable ty attr) &&
      cls.propsAndAttrs.all (fun attr => typeHasattr ty attr)

/-- Shallow embedding of PureInterface.provided_by (src/pure_interface.py lines 600-616);
the isinst flag stands for the isinstance(obj, cls) test, which includes direct and
inherited instances. -/
def providedBy (cls : SIface) (obj : PyObj) (allowImplicit : Bool) (isinst : Bool) :
    Except String Bool :=
  if !cls.isInterface then Except.error "provided_by() can only be called on interfaces"
  else if isinst then Except.ok true
  else if !allowImplicit then Except.ok false
  else if classStructuralTypeCheck cls obj.ty then Except.ok true
  else Except.ok (structuralTypeCheck cls obj)

/-- Shallow embedding of AttributeProperty.__get__ (src/pure_interface.py lines 108-114)
reading the instance dict: a missing entry raises AttributeError carrying the name. -/
def attributePropertyGet (name : String) (instDict : List (String × Nat)) :
    Except String Nat :=
  match instDict.lookup name with
  | some v => Except.ok v
  | Option.none => Except.error name

/-- Shallow embedding of AttributeProperty.__set__ (src/pure_interface.py lines 116-117):
assignment of the value into the instance dict under the same name. -/
def attributePropertySet (name : String) (value : Nat) (instDict : List (String × Nat)) :
    List (String × Nat) :=
  dictInsert instDict (name, value)

/-- Base class as the signature-checking phase of PureInterfaceType.__new__ sees it:
whether it is the builtin object, the interface flag computed for it by
_type_is_pure_interface, whether it carries a _pi record, its contributed method
signatures (from _pi, or recovered from the abstract methods of a plain ABC), whether it
subclasses PureInterface, and its own class dict with name and module for error
messages. -/
structure BaseInfo where
  isObject : Bool
  baseIsInterface : Bool
  hasPi : Bool
  piMethodSignatures : List (String × ArgSpec)
  abcSigs : List (String × ArgSpec)
  isPureInterfaceSubclass : Bool
  dict : List (String × AttrValue)
  module : String
  name : String
  deriving DecidableEq, Repr

/-- Method signatures a base contributes, following src/pure_interface.py lines 459-465. -/
def baseSigs (b : BaseInfo) : List (String × ArgSpec) :=
  if b.hasPi then b.piMethodSignatures else b.abcSigs

/-- Shallow embedding of the base loop of PureInterfaceType.__new__
(src/pure_interface.py lines 452-470) restricted to signature aggregation and the
development-gated checking of concrete non-PureInterface bases; the source iterates from
the back of the bases list, so this function is called with the bases reversed. -/
def baseLoopRev (isDev : Bool) :
    List BaseInfo → List (String × ArgSpec) → Except String (List (String × ArgSpec))
  | [], sigs => Except.ok sigs
  | b :: rest, sigs =>
    if b.isObject then baseLoopRev isDev rest sigs
    else if b.baseIsInterface then
      baseLoopRev isDev rest (dictUpdate sigs (baseSigs b))
    else if !b.isPureInterfaceSubclass && isDev then
      match checkMethodSignatures sigs b.dict b.module b.name with
      | Except.ok _ => baseLoopRev isDev rest sigs
      | Except.error e => Except.error e
    else baseLoopRev isDev rest sigs

/-- Shallow embedding of the signature-checking phase of PureInterfaceType.__new__
(src/pure_interface.py lines 448-473): aggregate signatures over the bases from the back,
checking concrete non-PureInterface bases along the way, then check the namespace of the
class being built; both checks run only in development mode. -/
def newSignatureCheckPhase (isDev : Bool) (bases : List BaseInfo)
    (attributes : List (String × AttrValue)) (module clsname : String) :
    Except String (List (String × ArgSpec)) :=
  match baseLoopRev isDev bases.reverse [] with
  | Except.error e => Except.error e
  | Except.ok sigs =>
    if isDev then
      match checkMethodSignatures sigs attributes module clsname with
      | Except.ok _ => Except.ok sigs
      | Except.error e => Except.error e
    else Except.ok sigs

/-- Placeholder test lifted to the optional entries of the functions list. -/
def optFuncPlaceholder : Option NamedFunc → Bool
  | Option.none => true
  | some nf => isPlaceholderCode nf.code

/-- Emptiness test lifted to the optional entries of the functions list. -/
def optFuncEmpty : Option NamedFunc → Bool
  | Option.none => true
  | some nf => isEmptyCode nf.code

/-- ArgSpec of the interface method f(self, a, b). -/
def sigSelfAB : ArgSpec := ⟨["self", "a", "b"], false, false, 0⟩

/-- Interface with one registered adapter: source type 0 adapts via adapter 1. -/
def mainIface : AIface := ⟨true, [(0, 1)]⟩

/-- Direct subinterface with its own adapter for the same source type 0, via adapter 2. -/
def subIface : AIface := ⟨true, [(0, 2)]⟩

/-- ArgSpec of the base method f(a, b, c=1). -/
def kwBaseSig : ArgSpec := ⟨["a", "b", "c"], false, false, 1⟩

/-- ArgSpec of the keyword-capturing override f(a, c=4, *args, **kwargs). -/
def kwOverrideSig : ArgSpec := ⟨["a", "c"], true, true, 1⟩

/-- Interface base contributing the signature of f(self, a, b) through its _pi record. -/
def devIfaceBase : BaseInfo :=
  ⟨false, true, true, [("f", sigSelfAB)], [], true, [], "m", "B"⟩

/-- Replacing the bindings of another key does not change a lookup. -/
theorem lookup_map_replace {κ α : Type} [BEq κ] [LawfulBEq κ]
    (d : List (κ × α)) (k' : κ) (v' : α) (k : κ) (hk : (k == k') = false) :
    (d.map (fun p => if p.1 == k' then (k', v') else p)).lookup k = d.lookup k := by
  induction d with
  | nil => simp
  | cons p rest ih =>
    obtain ⟨pk, pv⟩ := p
    by_cases hp : (pk == k') = true
    · have hp' : pk = k' := eq_of_beq hp
      have hkp : (k == pk) = false := by rw [hp']; exact hk
      simp only [List.map_cons, hp, if_true, List.lookup_cons, hk, hkp]
      exact ih
    · have hp2 : (pk == k') = false := by simpa using hp
      simp only [List.map_cons, hp2, Bool.false_eq_true, if_false, List.lookup_cons]
      cases hkq : (k == pk) with
      | true => rfl
      | false => exact ih

/-- Replacing the bindings of a key present in the list makes its lookup the new value. -/
theorem lookup_map_replace_hit {κ α : Type} [BEq κ] [LawfulBEq κ]
    (d : List (κ × α)) (k' : κ) (v' : α) (hd : d.any (fun p => p.1 == k') = true) :
    (d.map (fun p => if p.1 == k' then (k', v') else p)).lookup k' = some v' := by
  induction d with
  | nil => simp at hd
  | cons p rest ih =>
    obtain ⟨pk, pv⟩ := p
    by_cases hp : (pk == k') = true
    · simp only [List.map_cons, hp, if_true, List.lookup_cons, BEq.refl]
    · have hp2 : (pk == k') = false := by simpa using hp
      have hd' : rest.any (fun p => p.1 == k') = true := by
        simpa [List.any_cons, hp2] using hd
      have hne : pk ≠ k' := ne_of_beq_false hp2
      have hsym : (k' == pk) = false := beq_false_of_ne (Ne.symm hne)
      simp only [List.map_cons, hp2, Bool.false_eq_true, if_false, List.lookup_cons, hsym]
      exact ih hd'

/-- Lookup through appending a single binding at the end of the list. -/
theorem lookup_append_single {κ α : Type} [BEq κ]
    (d : List (κ × α)) (k' : κ) (v' : α) (k : κ) :
    (d ++ [(k', v')]).lookup k =
      (match d.lookup k with
       | some v => some v
       | Option.none => if k == k' then some v' else Option.none) := by
  induction d with
  | nil =>
    simp only [List.nil_append, List.lookup_cons, List.lookup_nil]
    cases hk : (k == k') with
    | true => rfl
    | false => rfl
  | cons p rest ih =>
    obtain ⟨pk, pv⟩ := p
    simp only [List.cons_append, List.lookup_cons]
    cases hkp : (k == pk) with
    | true => rfl
    | false => exact ih

/-- Absent keys look up to none. -/
theorem lookup_eq_none_of_not_any {κ α : Type} [BEq κ] [LawfulBEq κ]
    (d : List (κ × α)) (k : κ) (h : d.any (fun p => p.1 == k) = false) :
    d.lookup k = Option.none := by
  induction d with
  | nil => simp
  | cons p rest ih =>
    obtain ⟨pk, pv⟩ := p
    simp only [List.any_cons, Bool.or_eq_false_iff] at h
    have hne : pk ≠ k := ne_of_beq_false h.1
    have hsym : (k == pk) = false := beq_false_of_ne (Ne.symm hne)
    simp only [List.lookup_cons, hsym]
    exact ih h.2

/-- Dict assignment only changes the lookup of the assigned key. -/
theorem lookup_dictInsert {κ α : Type} [BEq κ] [LawfulBEq κ]
    (d : List (κ × α)) (k' : κ) (v' : α) (k : κ) :
    (dictInsert d (k', v')).lookup k = if k == k' then some v' else d.lookup k := by
  by_cases hany : (d.any (fun p => p.1 == k')) = true
  · rw [dictInsert, if_pos hany]
    by_cases hk : (k == k') = true
    · have hkeq : k = k' := eq_of_beq hk
      subst hkeq
      rw [if_pos hk, lookup_map_replace_hit d k v' hany]
    · have hk2 : (k == k') = false := by simpa using hk
      rw [if_neg (by simp [hk2]), lookup_map_replace d k' v' k hk2]
  · have hany2 : (d.any (fun p => p.1 == k')) = false := by
      cases h2 : d.any (fun p => p.1 == k') with
      | true => exact absurd h2 hany
      | false => rfl
    rw [dictInsert, if_neg hany, lookup_append_single]
    by_cases hk : (k == k') = true
    · have hkeq : k = k' := eq_of_beq hk
      subst hkeq
      rw [lookup_eq_none_of_not_any d k hany2]
    · have hk2 : (k == k') = false := by simpa using hk
      cases hl : d.lookup k <;> simp [hk2]

/-- Dict update looks up to the last binding of the new list when present, and to the old
dict otherwise. -/
theorem lookup_dictUpdate {κ α : Type} [BEq κ] [LawfulBEq κ]
    (new : List (κ × α)) (d : List (κ × α)) (k : κ) :
    (dictUpdate d new).lookup k =
      (match new.reverse.lookup k with
       | some v => some v
       | Option.none => d.lookup k) := by
  induction new generalizing d with
  | nil => simp [dictUpdate]
  | cons kv new' ih =>
    obtain ⟨k', v'⟩ := kv
    have hstep : dictUpdate d ((k', v') :: new') = dictUpdate (dictInsert d (k', v')) new' := by
      simp [dictUpdate]
    rw [hstep, ih, List.reverse_cons, lookup_append_single]
    cases hr : new'.reverse.lookup k with
    | some v => rfl
    | none =>
      rw [lookup_dictInsert]
      cases hk : (k == k') with
      | true => rfl
      | false => rfl


/-- Placeholder bodies pass the emptiness verifier. -/
theorem isEmptyCode_of_isPlaceholderCode (c : CodeObj) (h : isPlaceholderCode c = true) :
    isEmptyCode c = true := by
  rcases c with ⟨instrs, consts, names⟩
  match instrs with
  | [l, r] =>
    simp only [isPlaceholderCode, Bool.and_eq_true] at h
    simp [isEmptyCode, h.1]
  | [g, cf, rv, l, r] =>
    simp only [isPlaceholderCode, Bool.and_eq_true] at h
    obtain ⟨⟨⟨⟨hg, hcf⟩, hrv⟩, hl⟩, hr⟩ := h
    simp [isEmptyCode, hg, hcf, hrv, hl]
  | [] => simp [isPlaceholderCode] at h
  | [a] => simp [isPlaceholderCode] at h
  | [a, b, cc] => simp [isPlaceholderCode] at h
  | [a, b, cc, d] => simp [isPlaceholderCode] at h
  | a :: b :: cc :: d :: e :: f :: rest => simp [isPlaceholderCode] at h

/-- C1 counterexample: the class built over the direct bases object and an interface is
classified concrete by the code, although every direct base is an interface or object, so
bases that are plain object are not ignored by the vote as the claim states. -/
theorem interface_vote_object_counterexample :
    typeIsPureInterfaceFn ifaceBase = true ∧ objectBase.isObject = true ∧
    computeTypeIsInterface [objectBase, ifaceBase] "C" "m" = false ∧
    claimTypeIsInterface [objectBase, ifaceBase] = true := by decide

/-- C1 amended: away from the root PureInterface class, a participating class is classified
as a pure interface iff every one of its direct bases passes the pure-interface test; in
particular the builtin object fails that test, so any class listing object among its direct
bases is classified concrete. -/
theorem interface_vote_amended (bases : List PyBase) (clsname module : String)
    (hroot : ¬(clsname = "PureInterface" ∧ module = "pure_interface")) :
    (computeTypeIsInterface bases clsname module = true ↔
      ∀ b ∈ bases, typeIsPureInterfaceFn b = true) ∧
    (∀ b ∈ bases, b.isObject = true →
      computeTypeIsInterface bases clsname module = false) := by
  have hcond : (clsname == "PureInterface" && module == "pure_interface") = false := by
    by_cases h1 : clsname = "PureInterface"
    · by_cases h2 : module = "pure_interface"
      · exact absurd ⟨h1, h2⟩ hroot
      · simp [h1, h2]
    · simp [h1]
  constructor
  · rw [computeTypeIsInterface]
    simp only [hcond, Bool.false_eq_true, if_false]
    exact List.all_eq_true
  · intro b hb hobj
    rw [computeTypeIsInterface]
    simp only [hcond, Bool.false_eq_true, if_false]
    have hb0 : typeIsPureInterfaceFn b = false := by
      simp [typeIsPureInterfaceFn, hobj]
    cases hall : bases.all typeIsPureInterfaceFn with
    | false => rfl
    | true =>
      have := (List.all_eq_true.mp hall) b hb
      rw [hb0] at this
      exact absurd this (by simp)

/-- C1 amended witness at a concrete input. -/
theorem interface_vote_amended_witness :
    (¬("C" = "PureInterface" ∧ "m" = "pure_interface")) ∧
    (computeTypeIsInterface [ifaceBase] "C" "m" = true ↔
      ∀ b ∈ [ifaceBase], typeIsPureInterfaceFn b = true) :=
  ⟨by decide, (interface_vote_amended [ifaceBase] "C" "m" (by decide)).1⟩

/-- C2: interface class construction succeeds when every collected function body is a
placeholder (docstring, pass or ellipsis, or a single construct-and-raise of
NotImplementedError), and fails with an InterfaceError naming the function for a method
whose body is return 42. -/
theorem interface_emptiness_check_correct :
    (∀ funcs : List (Option NamedFunc),
      (∀ f ∈ funcs, optFuncPlaceholder f = true) →
      checkInterfaceFunctionsEmpty funcs = Except.ok ()) ∧
    (∀ (pre post : List (Option NamedFunc)) (name : String),
      (∀ f ∈ pre, optFuncEmpty f = true) →
      checkInterfaceFunctionsEmpty (pre ++ some ⟨name, return42Code⟩ :: post) =
        Except.error (emptyErrMsg name)) := by
  constructor
  · intro funcs h
    induction funcs with
    | nil => rfl
    | cons f rest ih =>
      cases f with
      | none =>
        exact ih (fun g hg => h g (List.mem_cons_of_mem _ hg))
      | some nf =>
        have hem : isEmptyCode nf.code = true :=
          isEmptyCode_of_isPlaceholderCode _ (h (some nf) (List.mem_cons_self _ _))
        simp only [checkInterfaceFunctionsEmpty, hem, if_true]
        exact ih (fun g hg => h g (List.mem_cons_of_mem _ hg))
  · intro pre post name h
    induction pre with
    | nil =>
      have h42 : isEmptyCode return42Code = false := by decide
      simp only [List.nil_append, checkInterfaceFunctionsEmpty, h42, Bool.false_eq_true,
        if_false]
    | cons f rest ih =>
      cases f with
      | none =>
        simp only [List.cons_append, checkInterfaceFunctionsEmpty]
        exact ih (fun g hg => h g (List.mem_cons_of_mem _ hg))
      | some nf =>
        have hem : isEmptyCode nf.code = true := h (some nf) (List.mem_cons_self _ _)
        simp only [List.cons_append, checkInterfaceFunctionsEmpty, hem, if_true]
        exact ih (fun g hg => h g (List.mem_cons_of_mem _ hg))

/-- C2 witness at concrete inputs: a pass body and a raise body are accepted, and a
return 42 body is rejected with the error naming the function. -/
theorem interface_emptiness_check_witness :
    checkInterfaceFunctionsEmpty [some ⟨"f", passCode⟩, some ⟨"g", raiseNIECode⟩] =
      Except.ok () ∧
    checkInterfaceFunctionsEmpty [some ⟨"f", passCode⟩, some ⟨"g", return42Code⟩] =
      Except.error (emptyErrMsg "g") :=
  ⟨interface_emptiness_check_correct.1 [some ⟨"f", passCode⟩, some ⟨"g", raiseNIECode⟩]
      (by decide),
   interface_emptiness_check_correct.2 [some ⟨"f", passCode⟩] [] "g" (by decide)⟩

/-- C3: for the interface method f(self, a, b) the signature check accepts the override
f(self, a, b, c=1), rejects f(self, a) and rejects f(self, b, a), the rejections raising
an InterfaceError. -/
theorem override_signature_cases :
    checkMethodSignatures [("f", sigSelfAB)]
        [("f", AttrValue.funcVal ⟨["self", "a", "b", "c"], false, false, 1⟩)] "m" "C" =
      Except.ok () ∧
    checkMethodSignatures [("f", sigSelfAB)]
        [("f", AttrValue.funcVal ⟨["self", "a"], false, false, 0⟩)] "m" "C" =
      Except.error (sigErrMsg "m" "C" "f") ∧
    checkMethodSignatures [("f", sigSelfAB)]
        [("f", AttrValue.funcVal ⟨["self", "b", "a"], false, false, 0⟩)] "m" "C" =
      Except.error (sigErrMsg "m" "C" "f") :=
  ⟨rfl, rfl, rfl⟩

/-- C4 counterexample: when the interface and one of its direct subinterfaces both register
an adapter for the same source type, lookup returns the adapter of the interface itself
(adapter 1), not the adapter of the more specific subinterface (adapter 2) as the claim
states. -/
theorem adapter_precedence_counterexample :
    mainIface.isInterface = true ∧ subIface.isInterface = true ∧
    mainIface.adapters.lookup 0 = some 1 ∧ subIface.adapters.lookup 0 = some 2 ∧
    getAdapter mainIface [subIface] [0] = some 1 ∧ (some 1 : Option Nat) ≠ some 2 := by
  decide

/-- C4 amended: adapter lookup scans the mro of the object type most-derived first over the
merged tables of the interface and its direct subclasses, where the merge gives the
interface itself precedence over subclass tables for the same source type; the first match
is returned, an exhausted mro returns none, and a type without an entry defers to the rest
of the mro. -/
theorem adapter_lookup_amended :
    (∀ (cls : AIface) (subs : List AIface) (t a : Nat) (rest : List Nat),
      cls.isInterface = true →
      cls.adapters.reverse.lookup t = some a →
      getAdapter cls subs (t :: rest) = some a) ∧
    (∀ (cls : AIface) (subs : List AIface), getAdapter cls subs [] = Option.none) ∧
    (∀ (cls : AIface) (subs : List AIface) (t : Nat) (rest : List Nat),
      (mergedAdapters cls subs).lookup t = Option.none →
      getAdapter cls subs (t :: rest) = getAdapter cls subs rest) := by
  refine ⟨?_, ?_, ?_⟩
  · intro cls subs t a rest hc ha
    have hmerged : (mergedAdapters cls subs).lookup t = some a := by
      rw [mergedAdapters]
      have hrev : (cls :: subs).reverse = subs.reverse ++ [cls] := by
        simp
      rw [hrev, List.foldl_append]
      simp only [List.foldl_cons, List.foldl_nil, hc, if_true]
      rw [lookup_dictUpdate, ha]
    have hne : (mergedAdapters cls subs).isEmpty = false := by
      cases hM : mergedAdapters cls subs with
      | nil => rw [hM] at hmerged; simp at hmerged
      | cons x xs => rfl
    simp only [getAdapter, hne, Bool.false_eq_true, if_false]
    simp only [firstAdapterFor, hmerged]
  · intro cls subs
    simp only [getAdapter]
    split
    · rfl
    · rfl
  · intro cls subs t rest h
    simp only [getAdapter]
    split
    · rfl
    · simp only [firstAdapterFor, h]

/-- C4 amended witness at a concrete input. -/
theorem adapter_lookup_amended_witness :
    mainIface.isInterface = true ∧ mainIface.adapters.reverse.lookup 0 = some 1 ∧
    getAdapter mainIface [subIface] [0, 3] = some 1 :=
  ⟨by decide, by decide,
   adapter_lookup_amended.1 mainIface [subIface] 0 1 [3] (by decide) (by decide)⟩

/-- C5 counterexample: for the base f(a, b, c=1) and the keyword-capturing override
f(a, c=4, *args, **kwargs), consistency fails although the required-name, new-required and
variadic conjuncts all hold, so the failure is on account of the defaulted-name check
despite the override capturing variadic keywords. -/
theorem kw_capture_defaults_counterexample :
    kwOverrideSig.keywords = true ∧
    signaturesAreConsistent kwOverrideSig kwBaseSig = false ∧
    reqNamesMatch kwOverrideSig kwBaseSig = true ∧
    noNewRequiredArgs kwOverrideSig kwBaseSig = true ∧
    varargsOk kwOverrideSig kwBaseSig = true ∧
    defNamesMatch kwOverrideSig kwBaseSig = false := by decide

/-- C5 amended: a keyword-capturing override always satisfies the defaulted-name prefix
requirement, so its defaulted-name check holds whenever the override has no variadic
positional capture or the base has no defaulted parameters; when the check nevertheless
fails for such an override, the base has defaulted parameters, the override captures
variadic positionals, and some overridden defaulted name occupies a different positional
index in the two signatures (the duplicate-binding case). -/
theorem kw_capture_defaults_amended :
    (∀ funcSig baseSig : ArgSpec, funcSig.keywords = true →
      (funcSig.varargs = false ∨ (signatureInfo baseSig).2 = []) →
      defNamesMatch funcSig baseSig = true) ∧
    (∀ funcSig baseSig : ArgSpec, funcSig.keywords = true →
      defNamesMatch funcSig baseSig = false →
      funcSig.varargs = true ∧ (signatureInfo baseSig).2 ≠ [] ∧
        ∃ arg ∈ (signatureInfo funcSig).2, baseSig.args.contains arg = true ∧
          baseSig.args.indexOf arg ≠ funcSig.args.indexOf arg) := by
  constructor
  · intro f b hk hcase
    rcases hcase with hv | hd
    · simp [defNamesMatch, hk, hv]
    · simp [defNamesMatch, hk, hd]
  · intro f b hk hdm
    rw [defNamesMatch] at hdm
    simp only [hk, if_true] at hdm
    by_cases hcond : (!(signatureInfo b).2.isEmpty && f.varargs) = true
    · rw [if_pos hcond] at hdm
      simp only [Bool.true_and] at hdm
      have hcond2 := hcond
      simp only [Bool.and_eq_true] at hcond2
      obtain ⟨hne, hv⟩ := hcond2
      refine ⟨hv, ?_, ?_⟩
      · intro h0
        rw [h0] at hne
        simp at hne
      · obtain ⟨arg, harg, hpred⟩ := List.all_eq_false.mp hdm
        refine ⟨arg, harg, ?_⟩
        by_cases hc : b.args.contains arg = true
        · rw [if_pos hc] at hpred
          refine ⟨hc, ?_⟩
          intro heq
          exact hpred (by simp [heq])
        · rw [if_neg hc] at hpred
          exact absurd rfl hpred
    · rw [if_neg hcond] at hdm
      exact absurd hdm (by simp)

/-- C5 amended witness at a concrete input: an override with variadic keywords but no
variadic positionals passes the defaulted-name check against the base f(a, b, c=1). -/
theorem kw_capture_defaults_amended_witness :
    (⟨["a"], false, true, 0⟩ : ArgSpec).keywords = true ∧
    defNamesMatch ⟨["a"], false, true, 0⟩ kwBaseSig = true :=
  ⟨by decide,
   kw_capture_defaults_amended.1 ⟨["a"], false, true, 0⟩ kwBaseSig (by decide)
     (Or.inl (by decide))⟩

/-- C6: instantiating a concrete class returns the instance unchanged when every name of
abstractproperties and interface_attribute_names is resolvable on it, and any absence
produces a TypeError naming the class and a missing member. -/
theorem instance_guard_correct :
    (∀ (cls : PiCls) (self : PyInstance), cls.typeIsPureInterface = false →
      (∀ a ∈ cls.abstractproperties, self.attrs.contains a = true) →
      (∀ a ∈ cls.interfaceAttributeNames, self.attrs.contains a = true) →
      piCall cls self = Except.ok self) ∧
    (∀ (cls : PiCls) (self : PyInstance), cls.typeIsPureInterface = false →
      (∃ a, (a ∈ cls.abstractproperties ∨ a ∈ cls.interfaceAttributeNames) ∧
        self.attrs.contains a = false) →
      ∃ attr, (attr ∈ cls.abstractproperties ∨ attr ∈ cls.interfaceAttributeNames) ∧
        self.attrs.contains attr = false ∧
        piCall cls self = Except.error (missingAttrMsg cls.name attr)) := by
  constructor
  · intro cls self hconc h1 h2
    have hf1 : firstMissing self cls.abstractproperties = Option.none := by
      rw [firstMissing, List.find?_eq_none]
      intro a ha
      rw [h1 a ha]
      simp
    have hf2 : firstMissing self cls.interfaceAttributeNames = Option.none := by
      rw [firstMissing, List.find?_eq_none]
      intro a ha
      rw [h2 a ha]
      simp
    rw [piCall]
    simp only [hconc, Bool.false_eq_true, if_false, hf1, hf2]
  · intro cls self hconc hex
    cases hf1 : firstMissing self cls.abstractproperties with
    | some attr =>
      refine ⟨attr, Or.inl (List.mem_of_find?_eq_some hf1), ?_, ?_⟩
      · have := List.find?_some hf1
        simpa using this
      · rw [piCall]
        simp only [hconc, Bool.false_eq_true, if_false, hf1]
    | none =>
      have hall1 : ∀ x ∈ cls.abstractproperties, self.attrs.contains x = true := by
        intro x hx
        have := (List.find?_eq_none.mp hf1) x hx
        simpa using this
      obtain ⟨a, hmem, hmiss⟩ := hex
      have hmem2 : a ∈ cls.interfaceAttributeNames := by
        rcases hmem with h | h
        · rw [hall1 a h] at hmiss
          exact absurd hmiss (by simp)
        · exact h
      cases hf2 : firstMissing self cls.interfaceAttributeNames with
      | none =>
        exfalso
        refine (List.find?_eq_none.mp hf2) a hmem2 ?_
        show (!(self.attrs.contains a)) = true
        rw [hmiss]
        rfl
      | some attr =>
        refine ⟨attr, Or.inr (List.mem_of_find?_eq_some hf2), ?_, ?_⟩
        · have := List.find?_some hf2
          simpa using this
        · rw [piCall]
          simp only [hconc, Bool.false_eq_true, if_false, hf1, hf2]

/-- C6 witness at concrete inputs: an instance exposing both required names is returned
unchanged, and one missing the interface attribute y produces the error naming it. -/
theorem instance_guard_witness :
    piCall ⟨"C", false, ["x"], ["y"]⟩ ⟨["x", "y"]⟩ = Except.ok ⟨["x", "y"]⟩ ∧
    (∃ attr, (attr ∈ (["x"] : List String) ∨ attr ∈ (["y"] : List String)) ∧
      (["x"] : List String).contains attr = false ∧
      piCall ⟨"C", false, ["x"], ["y"]⟩ ⟨["x"]⟩ =
        Except.error (missingAttrMsg "C" attr)) :=
  ⟨instance_guard_correct.1 ⟨"C", false, ["x"], ["y"]⟩ ⟨["x", "y"]⟩ (by decide) (by decide)
      (by decide),
   instance_guard_correct.2 ⟨"C", false, ["x"], ["y"]⟩ ⟨["x"]⟩ (by decide)
      ⟨"y", Or.inr (by decide), by decide⟩⟩

/-- C7: every class classified as a pure interface refuses instantiation with an immediate
error, and an interface that ends construction with no unresolved members gets one
synthesized required-but-absent member so that its abstractmethods set is nonempty. -/
theorem interface_instantiation_refused :
    (∀ (cls : PiCls) (self : PyInstance), cls.typeIsPureInterface = true →
      piCall cls self = Except.error "Interfaces cannot be instantiated") ∧
    finalizeAbstractmethods true [] = [""] ∧
    finalizeAbstractmethods true [] ≠ [] := by
  refine ⟨?_, by decide, by decide⟩
  intro cls self h
  rw [piCall]
  simp [h]

/-- C7 witness at a concrete input: an empty interface refuses instantiation. -/
theorem interface_instantiation_refused_witness :
    piCall ⟨"I", true, [], []⟩ ⟨[]⟩ = Except.error "Interfaces cannot be instantiated" :=
  interface_instantiation_refused.1 ⟨"I", true, [], []⟩ ⟨[]⟩ (by decide)

/-- C8: provided_by returns true for instances of the interface; otherwise it returns false
when implicit conformance is disallowed, and with implicit conformance allowed it returns
the disjunction of the type-level and instance-level structural checks, each spelled out as
all declared method names resolving to callables and all declared property and attribute
names being present. -/
theorem provided_by_correct (cls : SIface) (obj : PyObj)
    (hi : cls.isInterface = true) (hcache : cls.structuralSubclasses = []) :
    (∀ allowImplicit : Bool, providedBy cls obj allowImplicit true = Except.ok true) ∧
    providedBy cls obj false false = Except.ok false ∧
    providedBy cls obj true false =
      Except.ok ((cls.methodNames.all (fun attr => typeCallable obj.ty attr) &&
                  cls.propsAndAttrs.all (fun attr => typeHasattr obj.ty attr)) ||
                 (cls.methodNames.all (fun attr => typeCallable obj.ty attr) &&
                  cls.propsAndAttrs.all (fun attr => obj.instAttrs.contains attr))) := by
  have hclass : classStructuralTypeCheck cls obj.ty =
      (cls.methodNames.all (fun attr => typeCallable obj.ty attr) &&
        cls.propsAndAttrs.all (fun attr => typeHasattr obj.ty attr)) := by
    rw [classStructuralTypeCheck, hcache]
    simp
  refine ⟨?_, ?_, ?_⟩
  · intro allowImplicit
    rw [providedBy]
    simp [hi]
  · rw [providedBy]
    simp [hi]
  · rw [providedBy]
    simp only [hi, Bool.not_true, Bool.false_eq_true, if_false, Bool.not_false, if_true]
    rw [hclass]
    cases hA : (cls.methodNames.all (fun attr => typeCallable obj.ty attr) &&
        cls.propsAndAttrs.all (fun attr => typeHasattr obj.ty attr)) with
    | true => simp [structuralTypeCheck]
    | false => simp [structuralTypeCheck]

/-- C8 witness at a concrete input: a type exposing a callable m but no p on the type
itself, with p present on the instance, passes via the instance-level check. -/
theorem provided_by_witness :
    providedBy ⟨true, ["m"], ["p"], []⟩ ⟨⟨0, [("m", true)]⟩, ["p"]⟩ true false =
      Except.ok true :=
  (provided_by_correct ⟨true, ["m"], ["p"], []⟩ ⟨⟨0, [("m", true)]⟩, ["p"]⟩ (by decide)
      (by decide)).2.2.trans (by rfl)

/-- C9: the stored-attribute accessor round-trips, a set followed by a get of the same name
returning the value just stored for every instance dict, and a get before any set raises an
AttributeError carrying the name. -/
theorem attribute_property_roundtrip :
    (∀ (name : String) (v : Nat) (d : List (String × Nat)),
      attributePropertyGet name (attributePropertySet name v d) = Except.ok v) ∧
    (∀ (name : String) (d : List (String × Nat)), d.lookup name = Option.none →
      attributePropertyGet name d = Except.error name) := by
  constructor
  · intro name v d
    rw [attributePropertyGet, attributePropertySet, lookup_dictInsert]
    simp
  · intro name d h
    rw [attributePropertyGet, h]

/-- C9 witness at a concrete input: the name x is unset in the empty instance dict and
reading it fails with an AttributeError naming x, while a set of 5 then get returns 5. -/
theorem attribute_property_roundtrip_witness :
    attributePropertyGet "x" (attributePropertySet "x" 5 []) = Except.ok 5 ∧
    (([] : List (String × Nat)).lookup "x" = Option.none ∧
      attributePropertyGet "x" [] = Except.error "x") :=
  ⟨attribute_property_roundtrip.1 "x" 5 [],
   ⟨rfl, attribute_property_roundtrip.2 "x" [] rfl⟩⟩

/-- C10: with the development flag false the signature-checking phase of class construction
never fails, whatever the bases and namespace contain; with the flag true an inconsistent
override of an inherited interface method signature aborts construction with an
InterfaceError. -/
theorem development_flag_gates_signature_checks :
    (∀ (bases : List BaseInfo) (attributes : List (String × AttrValue))
        (module clsname : String),
      ∃ sigs, newSignatureCheckPhase false bases attributes module clsname =
        Except.ok sigs) ∧
    newSignatureCheckPhase true [devIfaceBase]
        [("f", AttrValue.funcVal ⟨["self", "a"], false, false, 0⟩)] "m" "C" =
      Except.error (sigErrMsg "m" "C" "f") := by
  constructor
  · intro bases attributes module clsname
    have hloop : ∀ (l : List BaseInfo) (sigs : List (String × ArgSpec)),
        ∃ s, baseLoopRev false l sigs = Except.ok s := by
      intro l
      induction l with
      | nil => exact fun sigs => ⟨sigs, rfl⟩
      | cons b rest ih =>
        intro sigs
        rw [baseLoopRev]
        by_cases hb : b.isObject = true
        · simp only [hb, if_true]
          exact ih sigs
        · simp only [hb, Bool.false_eq_true, if_false]
          by_cases hbi : b.baseIsInterface = true
          · simp only [hbi, if_true]
            exact ih _
          · simp only [hbi, Bool.false_eq_true, if_false, Bool.and_false, if_false]
            exact ih sigs
    obtain ⟨s, hs⟩ := hloop bases.reverse []
    refine ⟨s, ?_⟩
    rw [newSignatureCheckPhase, hs]
    rfl
  · rfl

end PureInterfaceSpec
